import Mathlib

/-!
Verification development for the CulturalTruth-MCP repository.

The definitions below are a shallow embedding of the TypeScript sources:
  * src/bias-detector.ts   (EnhancedBiasDetector: sanitizeInput, detectBiasPatterns,
                            calculateConfidence, calculateComplianceScore)
  * src/config/environment.ts (the two default configurations)
  * src/utils/lru-cache.ts (LRUCache.get / LRUCache.set over a JS Map)
  * src/utils/circuit-breaker.ts (CircuitBreaker.execute / onSuccess / onFailure)
  * the rate limiter (SimpleRateLimiter.removeTokens)
  * the orchestrator (analyzeContent / addAuditTrail / batchCulturalAudit)

JS numbers are modelled as rationals (ℚ) for scores and confidences and as
integers (ℤ) for clock readings; JS division producing NaN is modelled
explicitly by a small JsNum type where needed.  Text is modelled as List Char.
Each bias rule regex in the source has the shape \b(?:alt1|...|altn)\b with
literal alternatives (the single rule with an inner \s+ is expanded into the
ordered cross product of its two alternations, which matches the backtracking
order of the JS regex engine).  Every alternative starts and ends with a word
character, so the \b anchors reduce to checks that the neighbouring character
is not a word character.  Scanning is left to right and non overlapping, as
String.prototype.match with the g flag does; a fuel argument bounds the scan
by the text length so that all functions are structurally recursive and
kernel computable.
-/

/-- JS \w character class: [A-Za-z0-9_]. -/
def isWordChar (c : Char) : Bool :=
  c.isAlphanum || c = '_'

/-- ASCII part of the JS \s character class (sufficient for the texts and
patterns in this repository, which are ASCII). -/
def isJsSpace (c : Char) : Bool :=
  c = ' ' || c = '\t' || c = '\n' || c = '\r' || c = '\x0c' || c = '\x0b'

/-- ASCII lower casing, the effect of the i regex flag on the ASCII patterns
of the registry. -/
def lowerChar (c : Char) : Char := c.toLower

/-- Case-insensitive prefix test on character lists. -/
def ciStartsWith : List Char → List Char → Bool
  | [], _ => true
  | _ :: _, [] => false
  | p :: ps, c :: cs => lowerChar p = lowerChar c && ciStartsWith ps cs

/-- Length of the leading run of JS whitespace. -/
def leadingWs : List Char → Nat
  | [] => 0
  | c :: cs => if isJsSpace c then leadingWs cs + 1 else 0

/-- One token of a bias-rule pattern: a literal chunk (compared case
insensitively) or a \s+ gap. -/
inductive PatTok where
  | lit : List Char → PatTok
  | ws : PatTok
deriving DecidableEq, Repr

/-- An alternative of a rule pattern: a sequence of tokens. -/
abbrev AltSeq := List PatTok

/-- Match an alternative at the head of the text, returning the number of
characters consumed.  A \s+ gap consumes the maximal whitespace run (the
following literal starts with a non-space character, so the greedy JS
semantics is deterministic here). -/
def matchSeq : AltSeq → List Char → Option Nat
  | [], _ => some 0
  | PatTok.lit l :: rest, s =>
      if ciStartsWith l s then (matchSeq rest (s.drop l.length)).map (· + l.length) else none
  | PatTok.ws :: rest, s =>
      let n := leadingWs s
      if n = 0 then none else (matchSeq rest (s.drop n)).map (· + n)

/-- The trailing \b of a rule: every alternative ends in a word character, so
the boundary holds iff the next character is absent or not a word character. -/
def wordBoundaryAfter : List Char → Bool
  | [] => true
  | c :: _ => !isWordChar c

/-- Try the alternatives of a rule, in order, at the head of the text; JS
backtracks to the next alternative when the trailing \b fails. -/
def tryAlts : List AltSeq → List Char → Option Nat
  | [], _ => none
  | alt :: more, s =>
      match matchSeq alt s with
      | some n =>
          if 0 < n ∧ wordBoundaryAfter (s.drop n) then some n else tryAlts more s
      | none => tryAlts more s

/-- Left-to-right non-overlapping scan, as text.match(re) with the g flag.
atB records whether the current position is a \b position on the left (start
of text, or the previous character is not a word character).  The fuel is
instantiated with the text length, which suffices because every step consumes
at least one character. -/
def scanAux (alts : List AltSeq) : Nat → Bool → List Char → List (List Char)
  | 0, _, _ => []
  | _ + 1, _, [] => []
  | f + 1, atB, c :: rest =>
      if atB then
        match tryAlts alts (c :: rest) with
        | some n => (c :: rest).take n :: scanAux alts f false ((c :: rest).drop n)
        | none => scanAux alts f (!isWordChar c) rest
      else scanAux alts f (!isWordChar c) rest

/-- All matches of a rule pattern in the text, in order. -/
def matchesOf (alts : List AltSeq) (text : List Char) : List (List Char) :=
  scanAux alts text.length true text

/-- The suffix after the first > character, used by the HTML tag stripper
( the JS regex <[^>]*> matches up to the first closing > ). -/
def dropThroughGt : List Char → Option (List Char)
  | [] => none
  | '>' :: r => some r
  | _ :: r => dropThroughGt r

/-- replace(/<[^>]*>/g, ""): drop every < ... > span; a < with no later >
stays.  Fuel = text length. -/
def stripTags : Nat → List Char → List Char
  | 0, s => s
  | _ + 1, [] => []
  | f + 1, '<' :: rest =>
      match dropThroughGt rest with
      | some after => stripTags f after
      | none => '<' :: stripTags f rest
  | f + 1, c :: rest => c :: stripTags f rest

/-- The suffix after the first occurrence of the three characters - - >. -/
def dropThroughCloseComment : List Char → Option (List Char)
  | '-' :: '-' :: '>' :: r => some r
  | _ :: r => dropThroughCloseComment r
  | [] => none

/-- replace(/<!--[\s\S]*?-->/g, ""): drop every lazily matched HTML comment. -/
def stripComments : Nat → List Char → List Char
  | 0, s => s
  | _ + 1, [] => []
  | f + 1, '<' :: '!' :: '-' :: '-' :: rest =>
      match dropThroughCloseComment rest with
      | some after => stripComments f after
      | none => '<' :: stripComments f ('!' :: '-' :: '-' :: rest)
  | f + 1, c :: rest => c :: stripComments f rest

/-- replace(new RegExp(pat, "gi"), ""): a single left-to-right pass removing
case-insensitive occurrences of a literal pattern. -/
def removeCI (pat : List Char) : Nat → List Char → List Char
  | 0, s => s
  | _ + 1, [] => []
  | f + 1, c :: rest =>
      if 0 < pat.length ∧ ciStartsWith pat (c :: rest) then
        removeCI pat f ((c :: rest).drop pat.length)
      else c :: removeCI pat f rest

/-- The character-class step replace(/[^\w\s\-_.]/g, " "). -/
def keepSafeChar (c : Char) : Char :=
  if isWordChar c || isJsSpace c || c = '-' || c = '.' then c else ' '

/-- EnhancedBiasDetector.sanitizeInput: strip HTML tags, strip HTML comments,
remove javascript: and data: URL schemes, map unsafe characters to spaces,
cap at 10000 characters. -/
def sanitizeInput (text : List Char) : List Char :=
  let t1 := stripTags text.length text
  let t2 := stripComments t1.length t1
  let t3 := removeCI "javascript:".data t2.length t2
  let t4 := removeCI "data:".data t3.length t3
  (t4.map keepSafeChar).take 10000

inductive Mode where
  | hackathon
  | production
deriving DecidableEq, Repr

inductive DetectionLevel where
  | strict
  | moderate
  | lenient
deriving DecidableEq, Repr

inductive Severity where
  | low
  | medium
  | high
  | critical
deriving DecidableEq, Repr

inductive RiskLevel where
  | low
  | medium
  | high
  | critical
deriving DecidableEq, Repr

structure ComplianceThresholds where
  critical : ℚ
  high : ℚ
  medium : ℚ
deriving DecidableEq, Repr

structure EnabledFeatures where
  demographicAnalysis : Bool
  culturalTrends : Bool
  geospatialInsights : Bool
  batchProcessing : Bool
  realtimeSignals : Bool
deriving DecidableEq, Repr

/-- types/index.ts EnvironmentConfig. -/
structure EnvironmentConfig where
  mode : Mode
  enableFullPotential : Bool
  apiEndpoint : String
  biasDetectionLevel : DetectionLevel
  complianceThresholds : ComplianceThresholds
  enabledFeatures : EnabledFeatures
deriving DecidableEq, Repr

/-- config/environment.ts DEFAULT_HACKATHON_CONFIG. -/
def DEFAULT_HACKATHON_CONFIG : EnvironmentConfig where
  mode := Mode.hackathon
  enableFullPotential := false
  apiEndpoint := "https://hackathon.api.qloo.com"
  biasDetectionLevel := DetectionLevel.lenient
  complianceThresholds := { critical := 20, high := 40, medium := 60 }
  enabledFeatures :=
    { demographicAnalysis := false, culturalTrends := true, geospatialInsights := false,
      batchProcessing := true, realtimeSignals := true }

/-- config/environment.ts DEFAULT_PRODUCTION_CONFIG. -/
def DEFAULT_PRODUCTION_CONFIG : EnvironmentConfig where
  mode := Mode.production
  enableFullPotential := true
  apiEndpoint := "https://api.qloo.com"
  biasDetectionLevel := DetectionLevel.strict
  complianceThresholds := { critical := 10, high := 25, medium := 50 }
  enabledFeatures :=
    { demographicAnalysis := true, culturalTrends := true, geospatialInsights := true,
      batchProcessing := true, realtimeSignals := true }

/-- One entry of the static BIAS_PATTERNS registry (bias-detector.ts). -/
structure BiasRule where
  type : String
  alternatives : List AltSeq
  severity : Severity
  suggestions : List String
  regulation_risk : List String
  detectionLevel : List DetectionLevel
deriving DecidableEq, Repr

/-- A detected finding (types/index.ts BiasPattern, with the regex source
field dropped in detectBiasPatterns via destructuring).  The source field
named matches is called matchedTerms here because matches is a Lean keyword. -/
structure BiasPattern where
  type : String
  severity : Severity
  matchedTerms : List String
  suggestions : List String
  regulation_risk : List String
  confidence : ℚ
deriving DecidableEq, Repr

/-- types/index.ts ComplianceScore. -/
structure ComplianceScore where
  euAiAct : ℚ
  section508 : ℚ
  gdpr : ℚ
  riskLevel : RiskLevel
  overallScore : ℚ
  regulations_triggered : List String
deriving DecidableEq, Repr

/-- A one-word or one-phrase alternative of a rule pattern. -/
def strAlt (s : String) : AltSeq := [PatTok.lit s.data]

/-- An alternative of the gendered_roles rule: word, \s+, word. -/
def wsAlt (a b : String) : AltSeq := [PatTok.lit a.data, PatTok.ws, PatTok.lit b.data]

/-- bias-detector.ts BIAS_PATTERNS, in object-literal order.  The
gendered_roles regex (?:rockstar|ninja|guru|wizard)\s+(?:developer|engineer|
programmer) is expanded into the 12 sequences in JS backtracking order. -/
def BIAS_PATTERNS : List BiasRule := [
  { type := "gender_exclusive"
    alternatives := [strAlt "guys", strAlt "bros", strAlt "brotherhood", strAlt "manpower",
      strAlt "man-hours", strAlt "policeman", strAlt "fireman", strAlt "chairman",
      strAlt "businessman"]
    severity := Severity.medium
    suggestions := ["team", "colleagues", "workforce", "person-hours", "police officer",
      "firefighter", "chairperson", "businessperson"]
    regulation_risk := ["EU_AI_ACT", "EEOC", "TITLE_VII"]
    detectionLevel := [DetectionLevel.strict, DetectionLevel.moderate] },
  { type := "gender_exclusive"
    alternatives := [wsAlt "rockstar" "developer", wsAlt "rockstar" "engineer",
      wsAlt "rockstar" "programmer", wsAlt "ninja" "developer", wsAlt "ninja" "engineer",
      wsAlt "ninja" "programmer", wsAlt "guru" "developer", wsAlt "guru" "engineer",
      wsAlt "guru" "programmer", wsAlt "wizard" "developer", wsAlt "wizard" "engineer",
      wsAlt "wizard" "programmer"]
    severity := Severity.medium
    suggestions := ["skilled developer", "expert engineer", "experienced programmer",
      "talented developer"]
    regulation_risk := ["EU_AI_ACT", "EEOC"]
    detectionLevel := [DetectionLevel.strict] },
  { type := "age_discriminatory"
    alternatives := [strAlt "young", strAlt "recent graduate", strAlt "digital native",
      strAlt "energy", strAlt "fresh", strAlt "millennial", strAlt "gen-z",
      strAlt "generation z", strAlt "under 30", strAlt "20-something"]
    severity := Severity.high
    suggestions := ["qualified", "experienced", "skilled", "motivated", "enthusiastic",
      "tech-savvy"]
    regulation_risk := ["ADEA", "EU_AI_ACT", "AGE_DISCRIMINATION_ACT"]
    detectionLevel := [DetectionLevel.strict, DetectionLevel.moderate, DetectionLevel.lenient] },
  { type := "age_discriminatory"
    alternatives := [strAlt "overqualified", strAlt "too experienced", strAlt "set in ways",
      strAlt "old school", strAlt "traditional methods", strAlt "not tech-savvy"]
    severity := Severity.high
    suggestions := ["highly qualified", "extensively experienced", "proven methods",
      "established practices"]
    regulation_risk := ["ADEA", "EU_AI_ACT"]
    detectionLevel := [DetectionLevel.strict, DetectionLevel.moderate] },
  { type := "racial_proxy"
    alternatives := [strAlt "94110", strAlt "94102", strAlt "10025", strAlt "10128",
      strAlt "90210", strAlt "90211", strAlt "60601", strAlt "60605", strAlt "inner city",
      strAlt "urban", strAlt "suburban", strAlt "from the hood", strAlt "ghetto",
      strAlt "barrio"]
    severity := Severity.critical
    suggestions := ["location-flexible", "remote-friendly", "multiple locations",
      "urban area", "metropolitan area"]
    regulation_risk := ["FAIR_HOUSING_ACT", "GDPR", "EU_AI_ACT", "CIVIL_RIGHTS_ACT"]
    detectionLevel := [DetectionLevel.strict, DetectionLevel.moderate, DetectionLevel.lenient] },
  { type := "racial_proxy"
    alternatives := [strAlt "ivy league", strAlt "tier-1 college", strAlt "top university",
      strAlt "elite school", strAlt "prestigious institution"]
    severity := Severity.medium
    suggestions := ["accredited university", "relevant education", "qualified institution",
      "recognized degree"]
    regulation_risk := ["EU_AI_ACT", "EEOC"]
    detectionLevel := [DetectionLevel.strict] },
  { type := "cultural_insensitive"
    alternatives := [strAlt "native speaker", strAlt "american values",
      strAlt "western mindset", strAlt "traditional family", strAlt "christian values",
      strAlt "normal family", strAlt "typical american"]
    severity := Severity.high
    suggestions := ["fluent in", "aligned with company values", "diverse perspectives",
      "inclusive values", "family-friendly"]
    regulation_risk := ["TITLE_VII", "EU_AI_ACT", "RELIGIOUS_FREEDOM_ACT"]
    detectionLevel := [DetectionLevel.strict, DetectionLevel.moderate] },
  { type := "cultural_insensitive"
    alternatives := [strAlt "easy to pronounce name", strAlt "american sounding name",
      strAlt "simple name", strAlt "anglicized name"]
    severity := Severity.critical
    suggestions := ["clear communication skills", "professional presentation",
      "effective communication"]
    regulation_risk := ["TITLE_VII", "EU_AI_ACT", "NATIONAL_ORIGIN_DISCRIMINATION"]
    detectionLevel := [DetectionLevel.strict, DetectionLevel.moderate, DetectionLevel.lenient] },
  { type := "accessibility_barrier"
    alternatives := [strAlt "must be able to lift", strAlt "perfect vision",
      strAlt "hearing required", strAlt "no accommodations", strAlt "physically demanding",
      strAlt "requires standing", strAlt "manual dexterity required"]
    severity := Severity.critical
    suggestions := ["with or without accommodation", "reasonable accommodations provided",
      "essential job functions"]
    regulation_risk := ["ADA", "SECTION_508", "EU_ACCESSIBILITY_ACT", "REHABILITATION_ACT"]
    detectionLevel := [DetectionLevel.strict, DetectionLevel.moderate, DetectionLevel.lenient] },
  { type := "accessibility_barrier"
    alternatives := [strAlt "fast-paced environment", strAlt "high-stress",
      strAlt "multitasking required", strAlt "quick thinking", strAlt "rapid response",
      strAlt "immediate decisions"]
    severity := Severity.medium
    suggestions := ["dynamic environment", "collaborative setting", "efficient workflow",
      "effective decision-making"]
    regulation_risk := ["ADA", "EU_ACCESSIBILITY_ACT"]
    detectionLevel := [DetectionLevel.strict] }
]

/-- The context word table of calculateConfidence. -/
def contextWords (biasType : String) : List String :=
  if biasType = "gender_exclusive" then ["hiring", "job", "position", "role", "team"]
  else if biasType = "age_discriminatory" then ["candidate", "applicant", "hire", "employee"]
  else if biasType = "racial_proxy" then ["location", "area", "neighborhood", "zip"]
  else if biasType = "cultural_insensitive" then ["background", "culture", "family", "values"]
  else if biasType = "accessibility_barrier" then ["requirement", "must", "able", "capacity"]
  else []

/-- new RegExp("\\b" + word + "\\b", "i").test(text). -/
def hasContextWord (w : String) (text : List Char) : Bool :=
  !(matchesOf [strAlt w] text).isEmpty

/-- EnhancedBiasDetector.calculateConfidence. -/
def calculateConfidence (numMatches : Nat) (text : List Char) (biasType : String) : ℚ :=
  let base : ℚ := 7/10 + min ((numMatches : ℚ) * (1/10)) (2/10)
  let ctx : ℚ := ((contextWords biasType).filter (fun w => hasContextWord w text)).length
  min (base + ctx * (5/100)) 1

/-- The environment-specific confidence adjustment in detectBiasPatterns. -/
def modeAdjust (mode : Mode) (sev : Severity) (c : ℚ) : ℚ :=
  match mode with
  | Mode.hackathon => if sev = Severity.low ∨ sev = Severity.medium then c * (8/10) else c
  | Mode.production => c * (11/10)

/-- The finding produced for one registry rule (the loop body of
detectBiasPatterns): skip the rule when the detection level does not apply,
or when the regex has no match. -/
def findingOfRule (cfg : EnvironmentConfig) (s : List Char) (rule : BiasRule) :
    Option BiasPattern :=
  if cfg.biasDetectionLevel ∈ rule.detectionLevel then
    let ms := matchesOf rule.alternatives s
    if ms.isEmpty then none
    else
      some { type := rule.type
             severity := rule.severity
             matchedTerms := ms.map (fun mm => String.mk (mm.map lowerChar))
             suggestions := rule.suggestions
             regulation_risk := rule.regulation_risk
             confidence :=
               min (modeAdjust cfg.mode rule.severity
                 (calculateConfidence ms.length s rule.type)) 1 }
  else none

/-- Stable insertion into a list sorted by descending confidence; later
elements keep their place on ties, as the stable JS Array.prototype.sort
with comparator (a, b) => b.confidence - a.confidence does. -/
def insertByConfDesc (b : BiasPattern) : List BiasPattern → List BiasPattern
  | [] => [b]
  | x :: xs => if b.confidence < x.confidence then x :: insertByConfDesc b xs else b :: x :: xs

/-- Stable sort by descending confidence. -/
def sortByConfDesc (l : List BiasPattern) : List BiasPattern :=
  l.foldr insertByConfDesc []

/-- EnhancedBiasDetector.detectBiasPatterns. -/
def detectBiasPatterns (cfg : EnvironmentConfig) (text : String) : List BiasPattern :=
  sortByConfDesc (BIAS_PATTERNS.filterMap (findingOfRule cfg (sanitizeInput text.data)))

/-- The environment-specific severity multipliers of calculateComplianceScore. -/
def severityMultiplier (mode : Mode) (sev : Severity) : ℚ :=
  match mode, sev with
  | Mode.hackathon, Severity.low => 2
  | Mode.hackathon, Severity.medium => 8
  | Mode.hackathon, Severity.high => 20
  | Mode.hackathon, Severity.critical => 35
  | Mode.production, Severity.low => 3
  | Mode.production, Severity.medium => 10
  | Mode.production, Severity.high => 25
  | Mode.production, Severity.critical => 45

/-- Confidence-weighted total deduction of calculateComplianceScore. -/
def totalDeductions (mode : Mode) (l : List BiasPattern) : ℚ :=
  (l.map (fun b => severityMultiplier mode b.severity * b.confidence)).sum

/-- Insert with first-seen deduplication, the effect of adding to a JS Set. -/
def insertNew (acc : List String) (r : String) : List String :=
  if r ∈ acc then acc else acc ++ [r]

/-- The regulations Set accumulated over all findings, in first-seen order. -/
def collectRegs (l : List BiasPattern) : List String :=
  l.foldl (fun acc b => b.regulation_risk.foldl insertNew acc) []

/-- EnhancedBiasDetector.hasRegulationRisk. -/
def hasRegulationRisk (regs : List String) (targets : List String) : Bool :=
  targets.any (fun r => r ∈ regs)

def euAiActRegulations : List String := ["EU_AI_ACT"]
def section508Regulations : List String :=
  ["SECTION_508", "ADA", "REHABILITATION_ACT", "EU_ACCESSIBILITY_ACT"]
def gdprRegulations : List String := ["GDPR", "FAIR_HOUSING_ACT", "CIVIL_RIGHTS_ACT"]

/-- The environment-specific per-bucket penalties of calculateComplianceScore
(fields: euAiAct, section508, gdpr). -/
def regulationPenalty (mode : Mode) : ℚ × ℚ × ℚ :=
  match mode with
  | Mode.hackathon => (15, 12, 18)
  | Mode.production => (25, 20, 30)

/-- EnhancedBiasDetector.calculateComplianceScore. -/
def calculateComplianceScore (cfg : EnvironmentConfig) (biasPatterns : List BiasPattern) :
    ComplianceScore :=
  let td := totalDeductions cfg.mode biasPatterns
  let regs := collectRegs biasPatterns
  let baseScore : ℚ := max 0 (100 - td)
  let pen := regulationPenalty cfg.mode
  let euAiAct := if hasRegulationRisk regs euAiActRegulations
    then max 0 (baseScore - pen.1) else baseScore
  let section508 := if hasRegulationRisk regs section508Regulations
    then max 0 (baseScore - pen.2.1) else baseScore
  let gdpr := if hasRegulationRisk regs gdprRegulations
    then max 0 (baseScore - pen.2.2) else baseScore
  let overallScore := min euAiAct (min section508 gdpr)
  let riskLevel :=
    if overallScore < cfg.complianceThresholds.critical then RiskLevel.critical
    else if overallScore < cfg.complianceThresholds.high then RiskLevel.high
    else if overallScore < cfg.complianceThresholds.medium then RiskLevel.medium
    else RiskLevel.low
  { euAiAct := euAiAct, section508 := section508, gdpr := gdpr,
    riskLevel := riskLevel, overallScore := overallScore, regulations_triggered := regs }

/-! ## utils/lru-cache.ts

The JS Map is modelled as an association list in Map iteration order (oldest
entry first).  Map.delete followed by Map.set appends at the end; Map.set on
an existing key updates the value in place without moving the entry. -/

structure CacheEntry (α : Type) where
  value : α
  timestamp : ℤ
  accessCount : ℕ
deriving DecidableEq, Repr

structure LRUCache (α : Type) where
  entries : List (String × CacheEntry α)
  maxSize : ℕ
  ttl : ℤ
deriving DecidableEq, Repr

/-- Map.delete: remove the entry with the given key (keys are unique). -/
def eraseKey (key : String) : List (String × CacheEntry α) → List (String × CacheEntry α)
  | [] => []
  | (k, v) :: rest => if k = key then rest else (k, v) :: eraseKey key rest

/-- Map.get: the entry stored under the key, if any. -/
def lookupKey (key : String) : List (String × CacheEntry α) → Option (CacheEntry α)
  | [] => none
  | (k, v) :: rest => if k = key then some v else lookupKey key rest

/-- LRUCache.get at clock reading now: miss on absent key; expired entries
(age strictly above the TTL) are deleted and reported as a miss; a hit bumps
the access count and moves the entry to the end of the Map order (delete then
set). -/
def cacheGet (c : LRUCache α) (key : String) (now : ℤ) : Option α × LRUCache α :=
  match lookupKey key c.entries with
  | none => (none, c)
  | some item =>
      if now - item.timestamp > c.ttl then
        (none, { c with entries := eraseKey key c.entries })
      else
        let item2 : CacheEntry α :=
          { value := item.value, timestamp := item.timestamp,
            accessCount := item.accessCount + 1 }
        (some item.value, { c with entries := eraseKey key c.entries ++ [(key, item2)] })

/-- The while loop of LRUCache.set: while size is at least maxSize, delete
the first key of the Map order; the loop breaks when the map is empty. -/
def evictLoop (maxSize : ℕ) : List (String × CacheEntry α) → List (String × CacheEntry α)
  | [] => []
  | x :: xs => if maxSize ≤ (x :: xs).length then evictLoop maxSize xs else x :: xs

/-- Map.set: update in place when the key exists, else append at the end. -/
def mapSet (key : String) (e : CacheEntry α) :
    List (String × CacheEntry α) → List (String × CacheEntry α)
  | [] => [(key, e)]
  | (k, v) :: rest => if k = key then (k, e) :: rest else (k, v) :: mapSet key e rest

/-- LRUCache.set at clock reading now. -/
def cacheSet (c : LRUCache α) (key : String) (value : α) (now : ℤ) : LRUCache α :=
  let fresh : CacheEntry α := { value := value, timestamp := now, accessCount := 1 }
  { c with entries := mapSet key fresh (evictLoop c.maxSize c.entries) }

/-! ## utils/circuit-breaker.ts -/

inductive BreakerStatus where
  | closed
  | opened
  | halfOpen
deriving DecidableEq, Repr

/-- The breaker state; the source field named state is called status here.
The opened constructor embeds the source value "open" (a Lean keyword). -/
structure CircuitBreaker where
  failures : ℕ
  lastFailureTime : ℤ
  threshold : ℕ
  timeout : ℤ
  status : BreakerStatus
  successCount : ℕ
deriving DecidableEq, Repr

/-- new CircuitBreaker(threshold, timeout): failures = 0, lastFailureTime = 0,
state closed, successCount = 0. -/
def mkBreaker (threshold : ℕ) (timeout : ℤ) : CircuitBreaker :=
  { failures := 0, lastFailureTime := 0, threshold := threshold, timeout := timeout,
    status := BreakerStatus.closed, successCount := 0 }

/-- CircuitBreaker.onSuccess. -/
def onSuccess (cb : CircuitBreaker) : CircuitBreaker :=
  if cb.status = BreakerStatus.halfOpen then
    let sc := cb.successCount + 1
    if 3 ≤ sc then
      { cb with successCount := sc, status := BreakerStatus.closed, failures := 0 }
    else { cb with successCount := sc }
  else { cb with failures := 0, status := BreakerStatus.closed }

/-- CircuitBreaker.onFailure at clock reading now. -/
def onFailure (now : ℤ) (cb : CircuitBreaker) : CircuitBreaker :=
  let f := cb.failures + 1
  let st := if cb.threshold ≤ f then BreakerStatus.opened else cb.status
  { cb with failures := f, lastFailureTime := now, status := st }

/-- Outcome of one CircuitBreaker.execute call: the wrapped operation ran and
succeeded, ran and failed (the error is rethrown), or the breaker failed fast
without running the operation. -/
inductive ExecOutcome where
  | ranSuccess
  | ranFailure
  | fastFail
deriving DecidableEq, Repr

/-- CircuitBreaker.execute at clock reading now; opSucceeds is the outcome
the wrapped operation would have if run. -/
def execute (cb : CircuitBreaker) (now : ℤ) (opSucceeds : Bool) :
    ExecOutcome × CircuitBreaker :=
  if cb.status = BreakerStatus.opened then
    if now - cb.lastFailureTime > cb.timeout then
      let cb1 := { cb with status := BreakerStatus.halfOpen, successCount := 0 }
      if opSucceeds then (ExecOutcome.ranSuccess, onSuccess cb1)
      else (ExecOutcome.ranFailure, onFailure now cb1)
    else (ExecOutcome.fastFail, cb)
  else
    if opSucceeds then (ExecOutcome.ranSuccess, onSuccess cb)
    else (ExecOutcome.ranFailure, onFailure now cb)

/-- A sequence of calls whose wrapped operation fails, at the given clock
readings. -/
def execFailures (cb : CircuitBreaker) (times : List ℤ) : CircuitBreaker :=
  times.foldl (fun s t => (execute s t false).2) cb

/-! ## SimpleRateLimiter (rate limiter file).removeTokens -/

structure RateLimiter where
  tokens : ℚ
  lastRefill : ℤ
  tokensPerInterval : ℚ
  interval : ℤ
deriving DecidableEq, Repr

/-- Outcome of removeTokens: resolve immediately, or suspend for waitTime
milliseconds and then resolve. -/
inductive RateOutcome where
  | immediate
  | waited : ℤ → RateOutcome
deriving DecidableEq, Repr

/-- SimpleRateLimiter.removeTokens(count) at clock reading now: refill fully
when a whole interval has elapsed; deduct when enough tokens are available;
otherwise resolve after interval - timePassed milliseconds WITHOUT touching
tokens or lastRefill. -/
def removeTokens (st : RateLimiter) (now : ℤ) (count : ℚ) : RateOutcome × RateLimiter :=
  let timePassed := now - st.lastRefill
  let st1 := if timePassed ≥ st.interval
    then { st with tokens := st.tokensPerInterval, lastRefill := now }
    else st
  if st1.tokens ≥ count then
    (RateOutcome.immediate, { st1 with tokens := st1.tokens - count })
  else
    (RateOutcome.waited (st.interval - timePassed), st1)

/-! ## Orchestrator: analyzeContent / addAuditTrail / batchCulturalAudit
(unnamed part_005).

External effects (entity search over HTTP through the cache, rate limiter and
circuit breaker, and demographic lookups) are abstracted as a fallible body
outcome: analyzeContent runs Steps 1-4 of its try block, which either produce
the data listed in BodyOutcome or raise an error.  The try/catch and
audit-trail handling, which the claims are about, are embedded from the
source. -/

/-- types/index.ts AuditTrail.  Clock readings are integers; timestamp is the
ISO timestamp surrogate. -/
structure AuditTrail where
  timestamp : ℤ
  sessionId : String
  userId : Option String
  originalContent : String
  contentHash : String
  detectedBias : List BiasPattern
  qlooEntities : List String
  complianceScore : ComplianceScore
  mitigationActions : List String
  processingTime : ℤ
  apiCallsCount : ℕ
  cacheHits : ℕ
deriving DecidableEq, Repr

/-- addAuditTrail: push, then keep only the last maxTrails records via
slice(-maxTrails).  JS slice(-0) is slice(0), so maxTrails = 0 keeps
everything. -/
def addAuditTrail (maxTrails : ℕ) (trails : List AuditTrail) (t : AuditTrail) :
    List AuditTrail :=
  let l := trails ++ [t]
  if maxTrails < l.length then
    if maxTrails = 0 then l else l.drop (l.length - maxTrails)
  else l

/-- What the successful try block of analyzeContent produces beyond the pure
bias analysis: sanitized cultural entity ids, demographic analyses found,
cache hits and API calls consumed. -/
structure BodyOutcome where
  qlooEntityIds : List String
  demographicsCount : ℕ
  cacheHits : ℕ
  apiCallsCount : ℕ
deriving DecidableEq, Repr

/-- The result value of analyzeContent visible to the caller. -/
structure AnalysisResult where
  biasAnalysis : List BiasPattern
  complianceScore : ComplianceScore
  culturalEntityIds : List String
  auditTrail : AuditTrail
deriving DecidableEq, Repr

/-- The degraded audit record built in the catch branch of analyzeContent. -/
def errorAuditRecord (now : ℤ) (sessionId : String) (userId : Option String)
    (content : String) (contentHash : String) (processingTime : ℤ)
    (apiCallsCount : ℕ) (cacheHits : ℕ) : AuditTrail :=
  { timestamp := now
    sessionId := sessionId
    userId := userId
    originalContent := String.mk (content.data.take 1000)
    contentHash := contentHash
    detectedBias := []
    qlooEntities := []
    complianceScore :=
      { euAiAct := 0, section508 := 0, gdpr := 0, riskLevel := RiskLevel.critical,
        overallScore := 0, regulations_triggered := ["SYSTEM_ERROR"] }
    mitigationActions := ["System error occurred during analysis"]
    processingTime := processingTime
    apiCallsCount := apiCallsCount
    cacheHits := cacheHits }

/-- analyzeContent: Step 1 (bias detection and scoring) and Step 5 (audit
record creation and append) are embedded; Steps 2-4 are the abstract fallible
body.  On success one audit record with the analysis data is appended and the
result returned; on any error one degraded audit record is appended and the
error is rethrown. -/
def analyzeContent (cfg : EnvironmentConfig) (maxTrails : ℕ) (content : String)
    (userId : Option String) (sessionId contentHash : String) (now : ℤ)
    (processingTime : ℤ) (mitigation : List BiasPattern → List String)
    (body : Except String BodyOutcome) (trails : List AuditTrail) :
    Except String AnalysisResult × List AuditTrail :=
  match body with
  | Except.ok outcome =>
      let detectedBias := detectBiasPatterns cfg content
      let complianceScore := calculateComplianceScore cfg detectedBias
      let auditTrail : AuditTrail :=
        { timestamp := now
          sessionId := sessionId
          userId := userId
          originalContent := String.mk (content.data.take 1000)
          contentHash := contentHash
          detectedBias := detectedBias
          qlooEntities := outcome.qlooEntityIds
          complianceScore := complianceScore
          mitigationActions := mitigation detectedBias
          processingTime := processingTime
          apiCallsCount := outcome.apiCallsCount
          cacheHits := outcome.cacheHits }
      (Except.ok
        { biasAnalysis := detectedBias, complianceScore := complianceScore,
          culturalEntityIds := outcome.qlooEntityIds, auditTrail := auditTrail },
        addAuditTrail maxTrails trails auditTrail)
  | Except.error e =>
      (Except.error e,
        addAuditTrail maxTrails trails
          (errorAuditRecord now sessionId userId content contentHash processingTime 0 0))

/-! ## batchCulturalAudit -/

/-- JS double arithmetic outcomes that matter here: a finite value or NaN
(0 / 0 in JS is NaN). -/
inductive JsNum where
  | nan
  | num : ℚ → JsNum
deriving DecidableEq, Repr

/-- JS division for the avgComplianceScore computation: total and count are
finite and nonnegative in the source, and count = 0 with total = 0 gives NaN.
A positive total over zero is Infinity, which cannot arise here because the
total is accumulated over the processed requests; it is mapped to nan as
well, conservatively standing for every non-finite JS value. -/
def jsDiv (a b : ℚ) : JsNum :=
  if b = 0 then JsNum.nan else JsNum.num (a / b)

structure BatchAuditRequest where
  content : String
  userId : Option String
deriving DecidableEq, Repr

structure BatchEntry where
  index : ℕ
  biasAnalysis : List BiasPattern
  complianceScore : ComplianceScore
  culturalEntityIds : List String
  processingTime : ℤ
  error : Option String
deriving DecidableEq, Repr

structure BatchSummary where
  totalProcessed : ℕ
  avgComplianceScore : JsNum
  criticalIssuesCount : ℕ
  processingTime : ℤ
deriving DecidableEq, Repr

structure BatchAuditResult where
  success : Bool
  results : List BatchEntry
  summary : BatchSummary
deriving DecidableEq, Repr

/-- Per-request entry of batchCulturalAudit: a successful analyzeContent call
yields its data, a failed one yields the zero-score error entry. -/
def batchEntryOf (analyze : BatchAuditRequest → Except String AnalysisResult)
    (iReq : ℕ × BatchAuditRequest) : BatchEntry :=
  match analyze iReq.2 with
  | Except.ok a =>
      { index := iReq.1, biasAnalysis := a.biasAnalysis,
        complianceScore := a.complianceScore,
        culturalEntityIds := a.culturalEntityIds,
        processingTime := a.auditTrail.processingTime, error := none }
  | Except.error m =>
      { index := iReq.1, biasAnalysis := [],
        complianceScore :=
          { euAiAct := 0, section508 := 0, gdpr := 0, riskLevel := RiskLevel.critical,
            overallScore := 0, regulations_triggered := ["PROCESSING_ERROR"] },
        culturalEntityIds := [], processingTime := 0, error := some m }

/-- batchCulturalAudit.  The chunking into batches of 5 with inter-batch
delays only schedules the same per-request work and keeps results in input
order (Promise.all preserves order and chunks are concatenated in order), so
the result contents are the flat indexed map below.  totalComplianceScore
accumulates only over successful analyses (failed ones contribute 0), and
avgComplianceScore divides by the request count with no guard. -/
def batchCulturalAudit (analyze : BatchAuditRequest → Except String AnalysisResult)
    (requests : List BatchAuditRequest) (elapsed : ℤ) : BatchAuditResult :=
  let results := (requests.enum).map (batchEntryOf analyze)
  let totalComplianceScore : ℚ :=
    (results.map (fun r => if r.error = none then r.complianceScore.overallScore else 0)).sum
  let criticalIssuesCount :=
    (results.filter
      (fun r => r.error = none ∧ r.complianceScore.riskLevel = RiskLevel.critical)).length
  { success := true
    results := results
    summary :=
      { totalProcessed := requests.length
        avgComplianceScore := jsDiv totalComplianceScore (requests.length : ℚ)
        criticalIssuesCount := criticalIssuesCount
        processingTime := elapsed } }

/-- The Scenario A input text of the specification (the apostrophe is written
as a unicode escape). -/
def scenarioA : String :=
  "We\u0027re looking for young, energetic guys... Native English speakers preferred."

/-- A well-formed sample finding used to instantiate general theorems. -/
def sampleFinding1 : BiasPattern :=
  { type := "gender_exclusive", severity := Severity.medium, matchedTerms := ["guys"],
    suggestions := ["team"], regulation_risk := ["EU_AI_ACT"], confidence := 1/2 }

/-- A second well-formed sample finding. -/
def sampleFinding2 : BiasPattern :=
  { type := "racial_proxy", severity := Severity.critical, matchedTerms := ["90210"],
    suggestions := ["location-flexible"], regulation_risk := ["GDPR"], confidence := 3/4 }

/-- A capacity-2 cache, then filled with keys a and b, then key a is read
(a hit that moves a to the most recent position), then a fresh key c is
inserted into the full cache. -/
def cacheDemo0 : LRUCache ℕ := { entries := [], maxSize := 2, ttl := 300000 }

def cacheDemoFull : LRUCache ℕ := cacheSet (cacheSet cacheDemo0 "a" 1 10) "b" 2 20

def cacheDemoAfterGet : LRUCache ℕ := (cacheGet cacheDemoFull "a" 30).2

def cacheDemoAfterSet : LRUCache ℕ := cacheSet cacheDemoAfterGet "c" 3 40

/-- A breaker that has just tripped open at time 0 with the default
threshold 5 and timeout 30000. -/
def demoOpenBreaker : CircuitBreaker :=
  { failures := 5, lastFailureTime := 0, threshold := 5, timeout := 30000,
    status := BreakerStatus.opened, successCount := 0 }

/-- A breaker probing in half-open state with the failure count it carried
into the open state. -/
def demoHalfOpenBreaker : CircuitBreaker :=
  { failures := 5, lastFailureTime := 0, threshold := 5, timeout := 30000,
    status := BreakerStatus.halfOpen, successCount := 0 }

/-- The deduction contributed by one optional finding (proof helper used to
rewrite totalDeductions of a filterMap as a sum over the rule table). -/
def dedOfOpt (m : Mode) : Option BiasPattern → ℚ
  | none => 0
  | some b => severityMultiplier m b.severity * b.confidence

/-! ## Helper lemmas -/

theorem mem_insertNew {r x : String} {acc : List String} :
    r ∈ insertNew acc x ↔ r ∈ acc ∨ r = x := by
  unfold insertNew
  by_cases h : x ∈ acc
  · simp only [if_pos h]
    constructor
    · exact Or.inl
    · rintro (hr | rfl)
      · exact hr
      · exact h
  · simp [if_neg h]

theorem mem_foldl_insertNew {r : String} (rs : List String) (acc : List String) :
    r ∈ rs.foldl insertNew acc ↔ r ∈ acc ∨ r ∈ rs := by
  induction rs generalizing acc with
  | nil => simp
  | cons x xs ih =>
      simp only [List.foldl_cons, ih, mem_insertNew, List.mem_cons]
      tauto

theorem mem_collectRegs_aux {r : String} (l : List BiasPattern) (acc : List String) :
    r ∈ l.foldl (fun acc b => b.regulation_risk.foldl insertNew acc) acc ↔
      r ∈ acc ∨ ∃ b ∈ l, r ∈ b.regulation_risk := by
  induction l generalizing acc with
  | nil => simp
  | cons b bs ih =>
      simp only [List.foldl_cons, ih, mem_foldl_insertNew, List.mem_cons]
      constructor
      · rintro ((h | h) | ⟨b2, hb2, hr⟩)
        · exact Or.inl h
        · exact Or.inr ⟨b, Or.inl rfl, h⟩
        · exact Or.inr ⟨b2, Or.inr hb2, hr⟩
      · rintro (h | ⟨b2, (rfl | hb2), hr⟩)
        · exact Or.inl (Or.inl h)
        · exact Or.inl (Or.inr hr)
        · exact Or.inr ⟨b2, hb2, hr⟩

theorem mem_collectRegs {r : String} {l : List BiasPattern} :
    r ∈ collectRegs l ↔ ∃ b ∈ l, r ∈ b.regulation_risk := by
  unfold collectRegs
  rw [mem_collectRegs_aux]
  simp

theorem perm_insertByConfDesc (b : BiasPattern) (l : List BiasPattern) :
    List.Perm (insertByConfDesc b l) (b :: l) := by
  induction l with
  | nil => rfl
  | cons x xs ih =>
      unfold insertByConfDesc
      by_cases h : b.confidence < x.confidence
      · simp only [if_pos h]
        exact (ih.cons x).trans (List.Perm.swap b x xs)
      · simp [if_neg h]

theorem perm_sortByConfDesc (l : List BiasPattern) : List.Perm (sortByConfDesc l) l := by
  induction l with
  | nil => rfl
  | cons x xs ih =>
      unfold sortByConfDesc at *
      simpa using (perm_insertByConfDesc x (xs.foldr insertByConfDesc [])).trans (ih.cons x)

theorem totalDeductions_perm {m : Mode} {l1 l2 : List BiasPattern} (h : List.Perm l1 l2) :
    totalDeductions m l1 = totalDeductions m l2 :=
  (h.map _).sum_eq

theorem totalDeductions_append (m : Mode) (l1 l2 : List BiasPattern) :
    totalDeductions m (l1 ++ l2) = totalDeductions m l1 + totalDeductions m l2 := by
  simp [totalDeductions]

theorem severityMultiplier_nonneg (m : Mode) (s : Severity) :
    0 ≤ severityMultiplier m s := by
  cases m <;> cases s <;> norm_num [severityMultiplier]

theorem severityMultiplier_hack_le_prod (s : Severity) :
    severityMultiplier Mode.hackathon s ≤ severityMultiplier Mode.production s := by
  cases s <;> norm_num [severityMultiplier]

theorem totalDeductions_nonneg {m : Mode} {l : List BiasPattern}
    (h : ∀ b ∈ l, 0 ≤ b.confidence) : 0 ≤ totalDeductions m l := by
  unfold totalDeductions
  induction l with
  | nil => simp
  | cons b bs ih =>
      simp only [List.map_cons, List.sum_cons]
      have h1 : 0 ≤ severityMultiplier m b.severity * b.confidence :=
        mul_nonneg (severityMultiplier_nonneg m b.severity) (h b (List.mem_cons_self b bs))
      have h2 := ih (fun x hx => h x (List.mem_cons_of_mem b hx))
      linarith

theorem calculateConfidence_nonneg (n : Nat) (text : List Char) (t : String) :
    0 ≤ calculateConfidence n text t := by
  unfold calculateConfidence
  have h1 : (0 : ℚ) ≤ min ((n : ℚ) * (1/10)) (2/10) :=
    le_min (by positivity) (by norm_num)
  have h2 : (0 : ℚ) ≤
      (((contextWords t).filter (fun w => hasContextWord w text)).length : ℚ) := by
    positivity
  exact le_min (by linarith) (by norm_num)

theorem calculateConfidence_le_one (n : Nat) (text : List Char) (t : String) :
    calculateConfidence n text t ≤ 1 :=
  min_le_right _ _

theorem modeAdjust_nonneg {m : Mode} {s : Severity} {c : ℚ} (h : 0 ≤ c) :
    0 ≤ modeAdjust m s c := by
  cases m <;> simp only [modeAdjust]
  · split <;> positivity
  · positivity

theorem findingOfRule_conf_bounds {cfg : EnvironmentConfig} {s : List Char}
    {rule : BiasRule} {b : BiasPattern} (h : findingOfRule cfg s rule = some b) :
    0 ≤ b.confidence ∧ b.confidence ≤ 1 := by
  simp only [findingOfRule] at h
  split at h
  · split at h
    · exact absurd h (by simp)
    · rw [Option.some_inj] at h
      subst h
      constructor
      · exact le_min
          (modeAdjust_nonneg (calculateConfidence_nonneg _ _ _)) (by norm_num)
      · exact min_le_right _ _
  · exact absurd h (by simp)

theorem detect_conf_bounds {cfg : EnvironmentConfig} {text : String} {b : BiasPattern}
    (h : b ∈ detectBiasPatterns cfg text) : 0 ≤ b.confidence ∧ b.confidence ≤ 1 := by
  unfold detectBiasPatterns at h
  rw [(perm_sortByConfDesc _).mem_iff, List.mem_filterMap] at h
  obtain ⟨rule, _, hr⟩ := h
  exact findingOfRule_conf_bounds hr

theorem bucket_mono {b1 b2 p1 p2 : ℚ} {t1 t2 : Bool} (hb0 : 0 ≤ b2) (hb : b2 ≤ b1)
    (hp0 : 0 ≤ p1) (hp : p1 ≤ p2) (ht : t1 = true → t2 = true) :
    (if t2 = true then max 0 (b2 - p2) else b2) ≤ (if t1 = true then max 0 (b1 - p1) else b1) := by
  by_cases h1 : t1 = true
  · rw [if_pos (ht h1), if_pos h1]
    exact max_le_max le_rfl (by linarith)
  · rw [if_neg h1]
    by_cases h2 : t2 = true
    · rw [if_pos h2]
      exact max_le (le_trans hb0 hb) (by linarith)
    · rw [if_neg h2]
      exact hb

theorem hasRegulationRisk_mono {regs1 regs2 : List String} (targets : List String)
    (h : ∀ r ∈ regs1, r ∈ regs2) :
    hasRegulationRisk regs1 targets = true → hasRegulationRisk regs2 targets = true := by
  simp only [hasRegulationRisk, List.any_eq_true, decide_eq_true_eq]
  rintro ⟨t, ht, hmem⟩
  exact ⟨t, ht, h t hmem⟩

/-- Master comparison: when the second environment deduces at least as much,
penalizes at least as much, and triggers at least the same regulation
buckets, its overall score is at most the first one. -/
theorem overallScore_le {cfg1 cfg2 : EnvironmentConfig} {l1 l2 : List BiasPattern}
    (htd : totalDeductions cfg1.mode l1 ≤ totalDeductions cfg2.mode l2)
    (hpen1 : (regulationPenalty cfg1.mode).1 ≤ (regulationPenalty cfg2.mode).1)
    (hpen2 : (regulationPenalty cfg1.mode).2.1 ≤ (regulationPenalty cfg2.mode).2.1)
    (hpen3 : (regulationPenalty cfg1.mode).2.2 ≤ (regulationPenalty cfg2.mode).2.2)
    (hregs : ∀ r ∈ collectRegs l1, r ∈ collectRegs l2) :
    (calculateComplianceScore cfg2 l2).overallScore ≤
      (calculateComplianceScore cfg1 l1).overallScore := by
  unfold calculateComplianceScore
  simp only
  have hbase : max 0 (100 - totalDeductions cfg2.mode l2) ≤
      max 0 (100 - totalDeductions cfg1.mode l1) :=
    max_le_max le_rfl (by linarith)
  have hbase0 : (0 : ℚ) ≤ max 0 (100 - totalDeductions cfg2.mode l2) := le_max_left _ _
  have hp1 : (0 : ℚ) ≤ (regulationPenalty cfg1.mode).1 := by
    cases cfg1.mode <;> norm_num [regulationPenalty]
  have hp2 : (0 : ℚ) ≤ (regulationPenalty cfg1.mode).2.1 := by
    cases cfg1.mode <;> norm_num [regulationPenalty]
  have hp3 : (0 : ℚ) ≤ (regulationPenalty cfg1.mode).2.2 := by
    cases cfg1.mode <;> norm_num [regulationPenalty]
  have heu := bucket_mono hbase0 hbase hp1 hpen1
    (hasRegulationRisk_mono euAiActRegulations hregs)
  have hs5 := bucket_mono hbase0 hbase hp2 hpen2
    (hasRegulationRisk_mono section508Regulations hregs)
  have hgd := bucket_mono hbase0 hbase hp3 hpen3
    (hasRegulationRisk_mono gdprRegulations hregs)
  exact min_le_min heu (min_le_min hs5 hgd)

theorem totalDeductions_filterMap (m : Mode) (f : BiasRule → Option BiasPattern)
    (rules : List BiasRule) :
    totalDeductions m (rules.filterMap f) =
      (rules.map (fun p => dedOfOpt m (f p))).sum := by
  induction rules with
  | nil => rfl
  | cons p ps ih =>
      cases hf : f p with
      | none =>
          have h1 : totalDeductions m (List.filterMap f (p :: ps)) =
              totalDeductions m (List.filterMap f ps) := by
            simp [List.filterMap_cons, hf]
          rw [h1, ih, List.map_cons, List.sum_cons]
          have h2 : dedOfOpt m (f p) = 0 := by rw [hf]; rfl
          rw [h2, zero_add]
      | some b =>
          have h1 : totalDeductions m (List.filterMap f (p :: ps)) =
              severityMultiplier m b.severity * b.confidence +
                totalDeductions m (List.filterMap f ps) := by
            simp [List.filterMap_cons, hf, totalDeductions]
          rw [h1, ih, List.map_cons, List.sum_cons]
          congr 1
          rw [hf]
          rfl

theorem sum_map_le_sum_map {α : Type} {l : List α} {f g : α → ℚ}
    (h : ∀ x ∈ l, f x ≤ g x) : (l.map f).sum ≤ (l.map g).sum := by
  induction l with
  | nil => simp
  | cons x xs ih =>
      simp only [List.map_cons, List.sum_cons]
      have h1 := h x (List.mem_cons_self x xs)
      have h2 := ih (fun y hy => h y (List.mem_cons_of_mem x hy))
      linarith

/-- Every rule of the registry is active at the strict detection level. -/
theorem strict_mem_levels : ∀ rule ∈ BIAS_PATTERNS, DetectionLevel.strict ∈ rule.detectionLevel := by
  decide

theorem dedOfOpt_nonneg {m : Mode} {cfg : EnvironmentConfig} {s : List Char}
    {rule : BiasRule} : 0 ≤ dedOfOpt m (findingOfRule cfg s rule) := by
  cases hf : findingOfRule cfg s rule with
  | none => simp [dedOfOpt]
  | some b =>
      simp only [dedOfOpt]
      exact mul_nonneg (severityMultiplier_nonneg m b.severity)
        (findingOfRule_conf_bounds hf).1

/-- The per-finding deduction under the Hackathon adjustment and multipliers
is at most the one under the Production adjustment and multipliers, for any
raw confidence in [0, 1]. -/
theorem ded_le_ded (sev : Severity) (c : ℚ) (h0 : 0 ≤ c) (h1 : c ≤ 1) :
    severityMultiplier Mode.hackathon sev * min (modeAdjust Mode.hackathon sev c) 1 ≤
      severityMultiplier Mode.production sev * min (modeAdjust Mode.production sev c) 1 := by
  have hm : c ≤ min (c * (11/10)) 1 := le_min (by linarith) h1
  have hm2 : min (c * (11/10)) 1 ≤ 1 := min_le_right _ _
  cases sev <;>
    simp only [severityMultiplier, modeAdjust, reduceCtorEq, or_self, if_false, if_true,
      or_false, false_or]
  · rw [min_eq_left (by linarith : c * (8/10) ≤ 1)]
    linarith
  · rw [min_eq_left (by linarith : c * (8/10) ≤ 1)]
    linarith
  · rw [min_eq_left h1]
    linarith
  · rw [min_eq_left h1]
    linarith

theorem dedOfOpt_hack_le_prod (s : List Char) (rule : BiasRule)
    (hstrict : DetectionLevel.strict ∈ rule.detectionLevel) :
    dedOfOpt Mode.hackathon (findingOfRule DEFAULT_HACKATHON_CONFIG s rule) ≤
      dedOfOpt Mode.production (findingOfRule DEFAULT_PRODUCTION_CONFIG s rule) := by
  have hpstr : DEFAULT_PRODUCTION_CONFIG.biasDetectionLevel ∈ rule.detectionLevel := hstrict
  by_cases hl : DetectionLevel.lenient ∈ rule.detectionLevel
  · have hhl : DEFAULT_HACKATHON_CONFIG.biasDetectionLevel ∈ rule.detectionLevel := hl
    simp only [findingOfRule]
    rw [if_pos hhl, if_pos hpstr]
    by_cases hm : (matchesOf rule.alternatives s).isEmpty
    · rw [if_pos hm, if_pos hm]
      exact le_of_eq rfl
    · rw [if_neg hm, if_neg hm]
      simp only [dedOfOpt]
      exact ded_le_ded rule.severity _
        (calculateConfidence_nonneg _ _ _) (calculateConfidence_le_one _ _ _)
  · have hhl : DEFAULT_HACKATHON_CONFIG.biasDetectionLevel ∉ rule.detectionLevel := hl
    have h0 : findingOfRule DEFAULT_HACKATHON_CONFIG s rule = none := by
      simp only [findingOfRule]
      rw [if_neg hhl]
    rw [h0]
    have h1 : dedOfOpt Mode.hackathon (none : Option BiasPattern) = 0 := rfl
    rw [h1]
    exact dedOfOpt_nonneg

theorem td_detect_hack_le_prod (text : String) :
    totalDeductions DEFAULT_HACKATHON_CONFIG.mode
        (detectBiasPatterns DEFAULT_HACKATHON_CONFIG text) ≤
      totalDeductions DEFAULT_PRODUCTION_CONFIG.mode
        (detectBiasPatterns DEFAULT_PRODUCTION_CONFIG text) := by
  unfold detectBiasPatterns
  rw [totalDeductions_perm (perm_sortByConfDesc _),
    totalDeductions_perm (perm_sortByConfDesc _),
    totalDeductions_filterMap, totalDeductions_filterMap]
  exact sum_map_le_sum_map (fun rule hrule =>
    dedOfOpt_hack_le_prod _ rule (strict_mem_levels rule hrule))

theorem findingOfRule_prod_of_hack {s : List Char} {rule : BiasRule} {b : BiasPattern}
    (hstrict : DetectionLevel.strict ∈ rule.detectionLevel)
    (h : findingOfRule DEFAULT_HACKATHON_CONFIG s rule = some b) :
    ∃ b2, findingOfRule DEFAULT_PRODUCTION_CONFIG s rule = some b2 ∧
      b2.regulation_risk = b.regulation_risk := by
  have hpstr : DEFAULT_PRODUCTION_CONFIG.biasDetectionLevel ∈ rule.detectionLevel := hstrict
  simp only [findingOfRule] at h ⊢
  split at h
  · by_cases hm : (matchesOf rule.alternatives s).isEmpty
    · rw [if_pos hm] at h
      exact absurd h (by simp)
    · rw [if_neg hm] at h
      rw [if_pos hpstr, if_neg hm]
      rw [Option.some_inj] at h
      exact ⟨_, rfl, by rw [← h]⟩
  · exact absurd h (by simp)

theorem regs_detect_hack_sub_prod (text : String) :
    ∀ r ∈ collectRegs (detectBiasPatterns DEFAULT_HACKATHON_CONFIG text),
      r ∈ collectRegs (detectBiasPatterns DEFAULT_PRODUCTION_CONFIG text) := by
  intro r hr
  rw [mem_collectRegs] at hr ⊢
  obtain ⟨b, hb, hrb⟩ := hr
  unfold detectBiasPatterns at hb ⊢
  rw [(perm_sortByConfDesc _).mem_iff, List.mem_filterMap] at hb
  obtain ⟨rule, hrule, hfr⟩ := hb
  obtain ⟨b2, hb2, hregs⟩ :=
    findingOfRule_prod_of_hack (strict_mem_levels rule hrule) hfr
  refine ⟨b2, ?_, ?_⟩
  · rw [(perm_sortByConfDesc _).mem_iff, List.mem_filterMap]
    exact ⟨rule, hrule, hb2⟩
  · rw [hregs]
    exact hrb

theorem bucket_bounds {base p : ℚ} {t : Bool} (h0 : 0 ≤ base) (h1 : base ≤ 100)
    (hp : 0 ≤ p) :
    0 ≤ (if t = true then max 0 (base - p) else base) ∧
      (if t = true then max 0 (base - p) else base) ≤ 100 := by
  cases t with
  | false => simpa using ⟨h0, h1⟩
  | true =>
      refine ⟨by simp, ?_⟩
      simp only [if_pos rfl]
      exact max_le (by norm_num) (by linarith)

theorem overallScore_bounds (cfg : EnvironmentConfig) {l : List BiasPattern}
    (h : ∀ b ∈ l, 0 ≤ b.confidence) :
    0 ≤ (calculateComplianceScore cfg l).overallScore ∧
      (calculateComplianceScore cfg l).overallScore ≤ 100 := by
  have htd := totalDeductions_nonneg (m := cfg.mode) h
  have hp1 : (0 : ℚ) ≤ (regulationPenalty cfg.mode).1 := by
    cases cfg.mode <;> norm_num [regulationPenalty]
  have hp2 : (0 : ℚ) ≤ (regulationPenalty cfg.mode).2.1 := by
    cases cfg.mode <;> norm_num [regulationPenalty]
  have hp3 : (0 : ℚ) ≤ (regulationPenalty cfg.mode).2.2 := by
    cases cfg.mode <;> norm_num [regulationPenalty]
  have hb0 : (0 : ℚ) ≤ max 0 (100 - totalDeductions cfg.mode l) := le_max_left _ _
  have hb1 : max 0 (100 - totalDeductions cfg.mode l) ≤ 100 :=
    max_le (by norm_num) (by linarith)
  unfold calculateComplianceScore
  simp only
  have h1 := bucket_bounds (p := (regulationPenalty cfg.mode).1)
    (t := hasRegulationRisk (collectRegs l) euAiActRegulations) hb0 hb1 hp1
  have h2 := bucket_bounds (p := (regulationPenalty cfg.mode).2.1)
    (t := hasRegulationRisk (collectRegs l) section508Regulations) hb0 hb1 hp2
  have h3 := bucket_bounds (p := (regulationPenalty cfg.mode).2.2)
    (t := hasRegulationRisk (collectRegs l) gdprRegulations) hb0 hb1 hp3
  constructor
  · exact le_min h1.1 (le_min h2.1 h3.1)
  · exact le_trans (min_le_left _ _) h1.2

theorem detect_empty (cfg : EnvironmentConfig) : detectBiasPatterns cfg "" = [] := by
  unfold detectBiasPatterns
  have hsan : sanitizeInput "".data = [] := rfl
  rw [hsan]
  have hf : ∀ rule ∈ BIAS_PATTERNS, findingOfRule cfg [] rule = none := by
    intro rule _
    simp only [findingOfRule]
    split
    · have hm : (matchesOf rule.alternatives []).isEmpty = true := rfl
      rw [if_pos hm]
    · rfl
  rw [List.filterMap_eq_nil_iff.mpr hf]
  rfl

theorem evictLoop_of_lt {α : Type} {maxSize : ℕ} {l : List (String × CacheEntry α)}
    (h : l.length < maxSize) : evictLoop maxSize l = l := by
  cases l with
  | nil => rfl
  | cons x xs =>
      unfold evictLoop
      rw [if_neg (Nat.not_le.mpr h)]

theorem evictLoop_full {α : Type} {maxSize : ℕ} {l : List (String × CacheEntry α)}
    (hlen : l.length = maxSize) (hne : l ≠ []) : evictLoop maxSize l = l.tail := by
  cases l with
  | nil => exact absurd rfl hne
  | cons x xs =>
      unfold evictLoop
      rw [if_pos (Nat.le_of_eq hlen.symm)]
      have hx : xs.length < maxSize := by
        simp only [List.length_cons] at hlen
        omega
      rw [evictLoop_of_lt hx]
      rfl

theorem mapSet_fresh {α : Type} {k : String} {e : CacheEntry α}
    {l : List (String × CacheEntry α)} (h : ∀ kv ∈ l, kv.1 ≠ k) :
    mapSet k e l = l ++ [(k, e)] := by
  induction l with
  | nil => rfl
  | cons kv rest ih =>
      unfold mapSet
      rw [if_neg (h kv (List.mem_cons_self kv rest))]
      rw [ih (fun y hy => h y (List.mem_cons_of_mem kv hy))]
      rfl

theorem addAuditTrail_length {maxTrails : ℕ} {trails : List AuditTrail} {t : AuditTrail}
    (h : 0 < maxTrails) :
    (addAuditTrail maxTrails trails t).length = min (trails.length + 1) maxTrails := by
  unfold addAuditTrail
  by_cases hc : maxTrails < (trails ++ [t]).length
  · rw [if_pos hc, if_neg (Nat.pos_iff_ne_zero.mp h)]
    simp only [List.length_drop, List.length_append, List.length_cons,
      List.length_nil] at hc ⊢
    omega
  · rw [if_neg hc]
    simp only [List.length_append, List.length_cons, List.length_nil] at hc ⊢
    omega

theorem execFailures_opens (times : List ℤ) :
    ∀ cb : CircuitBreaker, cb.status = BreakerStatus.closed →
      cb.failures + times.length = cb.threshold → times ≠ [] →
      (execFailures cb times).status = BreakerStatus.opened := by
  induction times with
  | nil => intro cb _ _ hne; exact absurd rfl hne
  | cons t ts ih =>
      intro cb hst hcount _
      have hstep : execFailures cb (t :: ts) = execFailures (execute cb t false).2 ts := by
        unfold execFailures
        rw [List.foldl_cons]
      have hrun : execute cb t false = (ExecOutcome.ranFailure, onFailure t cb) := by
        unfold execute
        rw [if_neg (by rw [hst]; exact fun h => BreakerStatus.noConfusion h), if_neg (by simp)]
      cases ts with
      | nil =>
          have hth : cb.threshold ≤ cb.failures + 1 := by
            simp only [List.length_cons, List.length_nil] at hcount
            omega
          rw [hstep, hrun]
          unfold execFailures
          simp only [List.foldl_nil, onFailure]
          rw [if_pos hth]
      | cons t2 ts2 =>
          have hth : ¬ cb.threshold ≤ cb.failures + 1 := by
            simp only [List.length_cons] at hcount
            omega
          rw [hstep, hrun]
          apply ih
          · simp only [onFailure]
            rw [if_neg hth]
            exact hst
          · simp only [onFailure, List.length_cons]
            simp only [List.length_cons] at hcount
            omega
          · simp

/-! ## Claim theorems

Batteries marks the rational arithmetic operations irreducible; they are
restored to semireducible here so that concrete score computations can be
settled by kernel evaluation. -/

set_option allowUnsafeReducibility true

attribute [semireducible] Rat.mul Rat.add Rat.inv Rat.sub Rat.neg Rat.div

set_option maxRecDepth 1000000

/-- C1: for Scenario A under the Production (strict) configuration the
findings do contain an age_discriminatory match on "young" and a
gender_exclusive match on "guys", and the overall score 44.2 is below 50,
but the risk level the code computes is medium (44.2 is not below the
Production high threshold 25), not high or critical, so the claimed
conjunction is false. -/
theorem c1_scenarioA_counterexample :
    ¬ ((∃ b ∈ detectBiasPatterns DEFAULT_PRODUCTION_CONFIG scenarioA,
          b.type = "age_discriminatory" ∧ "young" ∈ b.matchedTerms) ∧
       (∃ b ∈ detectBiasPatterns DEFAULT_PRODUCTION_CONFIG scenarioA,
          b.type = "gender_exclusive" ∧ "guys" ∈ b.matchedTerms) ∧
       (calculateComplianceScore DEFAULT_PRODUCTION_CONFIG
          (detectBiasPatterns DEFAULT_PRODUCTION_CONFIG scenarioA)).overallScore < 50 ∧
       ((calculateComplianceScore DEFAULT_PRODUCTION_CONFIG
          (detectBiasPatterns DEFAULT_PRODUCTION_CONFIG scenarioA)).riskLevel = RiskLevel.high ∨
        (calculateComplianceScore DEFAULT_PRODUCTION_CONFIG
          (detectBiasPatterns DEFAULT_PRODUCTION_CONFIG scenarioA)).riskLevel =
            RiskLevel.critical)) := by
  decide

/-- C1 amended: for Scenario A under the Production configuration the
findings include an age_discriminatory finding matching "young" and a
gender_exclusive finding matching "guys", the overall score is strictly
below 50 (it is 221/5 = 44.2), and the risk level is medium. -/
theorem c1_scenarioA_amended :
    (∃ b ∈ detectBiasPatterns DEFAULT_PRODUCTION_CONFIG scenarioA,
        b.type = "age_discriminatory" ∧ "young" ∈ b.matchedTerms) ∧
    (∃ b ∈ detectBiasPatterns DEFAULT_PRODUCTION_CONFIG scenarioA,
        b.type = "gender_exclusive" ∧ "guys" ∈ b.matchedTerms) ∧
    (calculateComplianceScore DEFAULT_PRODUCTION_CONFIG
        (detectBiasPatterns DEFAULT_PRODUCTION_CONFIG scenarioA)).overallScore < 50 ∧
    (calculateComplianceScore DEFAULT_PRODUCTION_CONFIG
        (detectBiasPatterns DEFAULT_PRODUCTION_CONFIG scenarioA)).riskLevel =
      RiskLevel.medium := by
  decide

/-- C2: at the concrete scenario (capacity-2 cache holding a then b, a
successful get of a, then a set of the fresh key c) the claim predicts that
the oldest-inserted entry a is evicted; the code instead evicts b, because
get moved a to the most recent position of the Map order and set evicts the
front of that order.  The conjuncts record that the cache was full, the get
was a hit, and after the set a is still present while b is gone. -/
theorem c2_fifo_eviction_counterexample :
    cacheDemoFull.entries.length = cacheDemoFull.maxSize ∧
    (cacheGet cacheDemoFull "a" 30).1 = some 1 ∧
    (lookupKey "a" cacheDemoAfterSet.entries).isSome = true ∧
    lookupKey "b" cacheDemoAfterSet.entries = none := by
  decide

/-- C2 amended: a successful unexpired get returns the stored value, bumps
the access count, and moves the entry to the most recent end of the Map
order; a set of a fresh key on a cache at capacity evicts the entry at the
FRONT of that order, i.e. the least recently inserted-or-read entry, not
necessarily the oldest-inserted one. -/
theorem c2_lru_eviction_amended :
    (∀ (α : Type) (c : LRUCache α) (key : String) (now : ℤ) (item : CacheEntry α),
      lookupKey key c.entries = some item →
      now - item.timestamp ≤ c.ttl →
      cacheGet c key now =
        (some item.value,
          { c with entries := eraseKey key c.entries ++
              [(key, { value := item.value, timestamp := item.timestamp,
                       accessCount := item.accessCount + 1 })] })) ∧
    (∀ (α : Type) (c : LRUCache α) (k : String) (v : α) (now : ℤ),
      c.entries.length = c.maxSize →
      c.entries ≠ [] →
      (∀ kv ∈ c.entries, kv.1 ≠ k) →
      (cacheSet c k v now).entries =
        c.entries.tail ++ [(k, { value := v, timestamp := now, accessCount := 1 })]) := by
  constructor
  · intro α c key now item hfound hfresh
    simp only [cacheGet, hfound]
    have hng : ¬(now - item.timestamp > c.ttl) := not_lt.mpr hfresh
    rw [if_neg hng]
  · intro α c k v now hlen hne hfresh
    simp only [cacheSet]
    rw [evictLoop_full hlen hne]
    have hfresh2 : ∀ kv ∈ c.entries.tail, kv.1 ≠ k :=
      fun kv hkv => hfresh kv (List.mem_of_mem_tail hkv)
    rw [mapSet_fresh hfresh2]

/-- Witness for the amended C2 theorem at the concrete demonstration cache. -/
theorem c2_lru_eviction_amended_witness :
    cacheGet cacheDemoFull "a" 30 =
      (some 1,
        { cacheDemoFull with entries := eraseKey "a" cacheDemoFull.entries ++
            [("a", { value := 1, timestamp := 10, accessCount := 2 })] }) ∧
    (cacheSet cacheDemoAfterGet "c" 3 40).entries =
      cacheDemoAfterGet.entries.tail ++
        [("c", { value := 3, timestamp := 40, accessCount := 1 })] := by
  constructor
  · exact c2_lru_eviction_amended.1 ℕ cacheDemoFull "a" 30
      { value := 1, timestamp := 10, accessCount := 1 } (by decide) (by decide)
  · exact c2_lru_eviction_amended.2 ℕ cacheDemoAfterGet "c" 3 40
      (by decide) (by decide) (by decide)

/-- C3: circuit breaker transition rules of execute, from the source of
utils/circuit-breaker.ts.
1. From the initial closed state, any sequence of exactly threshold failed
   calls (threshold at least 1) leaves the breaker open.
2. While open with at most timeout elapsed since the last failure, a call
   fails fast, the state is unchanged, and the wrapped operation is not run
   (the result does not depend on what the operation would have returned).
3. While open with more than timeout elapsed, the call runs against the
   half-open state with a reset success counter.
4. From half-open with success counter 0, three consecutive successful
   calls close the breaker and reset the failure counter.
5. From half-open, one failed call reopens the breaker (every reachable
   half-open state has failures at least threshold, since entering open
   requires it and nothing resets failures before the breaker closes). -/
theorem c3_circuit_breaker_transitions :
    (∀ (th : ℕ) (tm : ℤ) (times : List ℤ), 1 ≤ th → times.length = th →
      (execFailures (mkBreaker th tm) times).status = BreakerStatus.opened) ∧
    (∀ (cb : CircuitBreaker) (now : ℤ) (b1 b2 : Bool),
      cb.status = BreakerStatus.opened →
      now - cb.lastFailureTime ≤ cb.timeout →
      execute cb now b1 = (ExecOutcome.fastFail, cb) ∧
        execute cb now b1 = execute cb now b2) ∧
    (∀ (cb : CircuitBreaker) (now : ℤ) (b : Bool),
      cb.status = BreakerStatus.opened →
      cb.timeout < now - cb.lastFailureTime →
      execute cb now b =
        (if b then
          (ExecOutcome.ranSuccess,
            onSuccess { cb with status := BreakerStatus.halfOpen, successCount := 0 })
         else
          (ExecOutcome.ranFailure,
            onFailure now { cb with status := BreakerStatus.halfOpen, successCount := 0 }))) ∧
    (∀ (cb : CircuitBreaker) (t1 t2 t3 : ℤ),
      cb.status = BreakerStatus.halfOpen →
      cb.successCount = 0 →
      ((execute (execute (execute cb t1 true).2 t2 true).2 t3 true).2).status =
          BreakerStatus.closed ∧
        ((execute (execute (execute cb t1 true).2 t2 true).2 t3 true).2).failures = 0) ∧
    (∀ (cb : CircuitBreaker) (now : ℤ),
      cb.status = BreakerStatus.halfOpen →
      cb.threshold ≤ cb.failures →
      ((execute cb now false).2).status = BreakerStatus.opened) := by
  refine ⟨?_, ?_, ?_, ?_, ?_⟩
  · intro th tm times h1 hlen
    apply execFailures_opens
    · rfl
    · simpa [mkBreaker] using hlen
    · intro hnil
      rw [hnil] at hlen
      simp at hlen
      omega
  · intro cb now b1 b2 hst htime
    have hng : ¬(now - cb.lastFailureTime > cb.timeout) := not_lt.mpr htime
    constructor
    · unfold execute
      rw [if_pos hst, if_neg hng]
    · unfold execute
      rw [if_pos hst, if_neg hng, if_pos hst, if_neg hng]
  · intro cb now b hst htime
    unfold execute
    rw [if_pos hst, if_pos htime]
  · intro cb t1 t2 t3 hst hsc
    simp [execute, onSuccess, hst, hsc]
  · intro cb now hst hth
    unfold execute
    rw [if_neg (by rw [hst]; exact fun h => BreakerStatus.noConfusion h)]
    rw [if_neg (by simp)]
    unfold onFailure
    simp only
    rw [if_pos (by omega : cb.threshold ≤ cb.failures + 1)]

/-- Witness for the circuit breaker transition theorem at concrete inputs:
threshold 5 with five failures, a fast-fail at exactly the timeout boundary,
a half-open probe just past the boundary, three successes closing the
breaker, and one failure reopening it. -/
theorem c3_circuit_breaker_transitions_witness :
    (execFailures (mkBreaker 5 30000) [1, 2, 3, 4, 5]).status = BreakerStatus.opened ∧
    execute demoOpenBreaker 30000 true = (ExecOutcome.fastFail, demoOpenBreaker) ∧
    execute demoOpenBreaker 30001 false =
      (ExecOutcome.ranFailure,
        onFailure 30001
          { demoOpenBreaker with status := BreakerStatus.halfOpen, successCount := 0 }) ∧
    ((execute (execute (execute demoHalfOpenBreaker 1 true).2 2 true).2 3 true).2).status =
      BreakerStatus.closed ∧
    ((execute demoHalfOpenBreaker 7 false).2).status = BreakerStatus.opened := by
  refine ⟨?_, ?_, ?_, ?_, ?_⟩
  · exact c3_circuit_breaker_transitions.1 5 30000 [1, 2, 3, 4, 5] (by decide) (by decide)
  · exact (c3_circuit_breaker_transitions.2.1 demoOpenBreaker 30000 true false
      (by decide) (by decide)).1
  · have h := c3_circuit_breaker_transitions.2.2.1 demoOpenBreaker 30001 false
      (by decide) (by decide)
    simpa using h
  · exact (c3_circuit_breaker_transitions.2.2.2.1 demoHalfOpenBreaker 1 2 3
      (by decide) (by decide)).1
  · exact c3_circuit_breaker_transitions.2.2.2.2 demoHalfOpenBreaker 7
      (by decide) (by decide)

/-- C4: for a fixed configuration, extending a finding list with additional
findings (well-formed ones, whose confidence is nonnegative, as every
finding the detector produces is) never increases the overall compliance
score. -/
theorem c4_score_monotone_extension (cfg : EnvironmentConfig)
    (l ex : List BiasPattern) (h : ∀ b ∈ ex, 0 ≤ b.confidence) :
    (calculateComplianceScore cfg (l ++ ex)).overallScore ≤
      (calculateComplianceScore cfg l).overallScore := by
  apply overallScore_le
  · rw [totalDeductions_append]
    have hex := totalDeductions_nonneg (m := cfg.mode) h
    linarith
  · exact le_rfl
  · exact le_rfl
  · exact le_rfl
  · intro r hr
    rw [mem_collectRegs] at hr ⊢
    obtain ⟨b, hb, hrb⟩ := hr
    exact ⟨b, List.mem_append_left ex hb, hrb⟩

/-- Witness for the monotonicity theorem at two concrete findings. -/
theorem c4_score_monotone_extension_witness :
    (calculateComplianceScore DEFAULT_PRODUCTION_CONFIG
        ([sampleFinding1] ++ [sampleFinding2])).overallScore ≤
      (calculateComplianceScore DEFAULT_PRODUCTION_CONFIG [sampleFinding1]).overallScore :=
  c4_score_monotone_extension DEFAULT_PRODUCTION_CONFIG [sampleFinding1] [sampleFinding2]
    (by decide)

/-- C5: analyzing the same text under the default Production configuration
yields an overall score at most the one under the default Hackathon
configuration.  (The trigger hypothesis of the claim is recorded; the code
satisfies the inequality even without it, since empty findings give 100 on
both sides.)  Production runs all registry rules at the strict level (a
superset of the lenient ones), multiplies confidences by 1.1 instead of
discounting them, uses heavier severity multipliers, and applies heavier
regulation penalties. -/
theorem c5_production_le_hackathon (text : String)
    (_htrig : detectBiasPatterns DEFAULT_HACKATHON_CONFIG text ≠ [] ∨
      detectBiasPatterns DEFAULT_PRODUCTION_CONFIG text ≠ []) :
    (calculateComplianceScore DEFAULT_PRODUCTION_CONFIG
        (detectBiasPatterns DEFAULT_PRODUCTION_CONFIG text)).overallScore ≤
      (calculateComplianceScore DEFAULT_HACKATHON_CONFIG
        (detectBiasPatterns DEFAULT_HACKATHON_CONFIG text)).overallScore := by
  apply overallScore_le
  · exact td_detect_hack_le_prod text
  · norm_num [regulationPenalty, DEFAULT_HACKATHON_CONFIG, DEFAULT_PRODUCTION_CONFIG]
  · norm_num [regulationPenalty, DEFAULT_HACKATHON_CONFIG, DEFAULT_PRODUCTION_CONFIG]
  · norm_num [regulationPenalty, DEFAULT_HACKATHON_CONFIG, DEFAULT_PRODUCTION_CONFIG]
  · exact regs_detect_hack_sub_prod text

/-- Witness for the cross-mode comparison on the text "young": Hackathon
overall is 69, Production overall is 53. -/
theorem c5_production_le_hackathon_witness :
    (calculateComplianceScore DEFAULT_PRODUCTION_CONFIG
        (detectBiasPatterns DEFAULT_PRODUCTION_CONFIG "young")).overallScore ≤
      (calculateComplianceScore DEFAULT_HACKATHON_CONFIG
        (detectBiasPatterns DEFAULT_HACKATHON_CONFIG "young")).overallScore :=
  c5_production_le_hackathon "young" (Or.inl (by decide))

/-- C6: analyzeContent appends exactly one audit record whether the body of
the try block succeeds or raises: the new trail is always the addAuditTrail
push of one record (so with a positive retention bound the trail grows to at
most that bound), and on the error path the call re-raises the error and the
appended record is the degraded one: no findings, all scores 0, risk level
critical, and the sentinel regulation tag SYSTEM_ERROR. -/
theorem c6_analyzeContent_audit_exactly_once (cfg : EnvironmentConfig)
    (maxTrails : ℕ) (content : String) (userId : Option String)
    (sessionId contentHash : String) (now processingTime : ℤ)
    (mitigation : List BiasPattern → List String)
    (body : Except String BodyOutcome) (trails : List AuditTrail) :
    (∃ r, (analyzeContent cfg maxTrails content userId sessionId contentHash now
        processingTime mitigation body trails).2 = addAuditTrail maxTrails trails r) ∧
    (0 < maxTrails →
      ((analyzeContent cfg maxTrails content userId sessionId contentHash now
          processingTime mitigation body trails).2).length =
        min (trails.length + 1) maxTrails) ∧
    (∀ e, body = Except.error e →
      (analyzeContent cfg maxTrails content userId sessionId contentHash now
          processingTime mitigation body trails).1 = Except.error e ∧
      (analyzeContent cfg maxTrails content userId sessionId contentHash now
          processingTime mitigation body trails).2 =
        addAuditTrail maxTrails trails
          (errorAuditRecord now sessionId userId content contentHash processingTime 0 0) ∧
      (errorAuditRecord now sessionId userId content contentHash
          processingTime 0 0).detectedBias = [] ∧
      (errorAuditRecord now sessionId userId content contentHash
          processingTime 0 0).complianceScore =
        { euAiAct := 0, section508 := 0, gdpr := 0, riskLevel := RiskLevel.critical,
          overallScore := 0, regulations_triggered := ["SYSTEM_ERROR"] }) := by
  cases body with
  | ok outcome =>
      refine ⟨⟨_, rfl⟩, fun hpos => addAuditTrail_length hpos, ?_⟩
      intro e he
      exact absurd he (by simp)
  | error e0 =>
      refine ⟨⟨_, rfl⟩, fun hpos => addAuditTrail_length hpos, ?_⟩
      intro e he
      rw [Except.error.injEq] at he
      subst he
      exact ⟨rfl, rfl, rfl, rfl⟩

/-- Witness for the audit theorem on the error path at concrete inputs. -/
theorem c6_analyzeContent_audit_exactly_once_witness :
    (analyzeContent DEFAULT_PRODUCTION_CONFIG 1000 "x" none "sid" "h" 0 1
        (fun _ => []) (Except.error "boom") []).1 = Except.error "boom" ∧
    (analyzeContent DEFAULT_PRODUCTION_CONFIG 1000 "x" none "sid" "h" 0 1
        (fun _ => []) (Except.error "boom") []).2 =
      addAuditTrail 1000 [] (errorAuditRecord 0 "sid" none "x" "h" 1 0 0) ∧
    ((analyzeContent DEFAULT_PRODUCTION_CONFIG 1000 "x" none "sid" "h" 0 1
        (fun _ => []) (Except.error "boom") []).2).length = min (0 + 1) 1000 := by
  have h := c6_analyzeContent_audit_exactly_once DEFAULT_PRODUCTION_CONFIG 1000 "x" none
    "sid" "h" 0 1 (fun _ => []) (Except.error "boom") []
  have herr := h.2.2 "boom" rfl
  exact ⟨herr.1, herr.2.1, h.2.1 (by decide)⟩

/-- C7: the bias detector and compliance scorer are total on every string
input (embedded as total functions: no partiality arises from any step of
the source, whose only operations are regex scans and arithmetic); the empty
string yields zero findings, and the scored result of any detector output is
a well-formed score in [0, 100]. -/
theorem c7_detector_scorer_total (cfg : EnvironmentConfig) (text : String) :
    detectBiasPatterns cfg "" = [] ∧
    0 ≤ (calculateComplianceScore cfg (detectBiasPatterns cfg text)).overallScore ∧
    (calculateComplianceScore cfg (detectBiasPatterns cfg text)).overallScore ≤ 100 := by
  refine ⟨detect_empty cfg, ?_, ?_⟩
  · exact (overallScore_bounds cfg (fun b hb => (detect_conf_bounds hb).1)).1
  · exact (overallScore_bounds cfg (fun b hb => (detect_conf_bounds hb).1)).2

/-- C8: for every configuration, the empty string yields the empty finding
list, and scoring the empty finding list yields overall score 100 with no
triggered regulations; the risk level is low for every configuration whose
thresholds are ordered and do not exceed 100 (true of both shipped presets;
a medium threshold above 100 would label even a perfect score). -/
theorem c8_empty_input_contract (cfg : EnvironmentConfig)
    (h1 : cfg.complianceThresholds.critical ≤ cfg.complianceThresholds.high)
    (h2 : cfg.complianceThresholds.high ≤ cfg.complianceThresholds.medium)
    (h3 : cfg.complianceThresholds.medium ≤ 100) :
    detectBiasPatterns cfg "" = [] ∧
    (calculateComplianceScore cfg []).overallScore = 100 ∧
    (calculateComplianceScore cfg []).regulations_triggered = [] ∧
    (calculateComplianceScore cfg []).riskLevel = RiskLevel.low := by
  have htd : totalDeductions cfg.mode [] = 0 := rfl
  have hregs : collectRegs [] = [] := rfl
  have hr1 : hasRegulationRisk (collectRegs []) euAiActRegulations = false := by decide
  have hr2 : hasRegulationRisk (collectRegs []) section508Regulations = false := by decide
  have hr3 : hasRegulationRisk (collectRegs []) gdprRegulations = false := by decide
  have hbase : max (0 : ℚ) (100 - totalDeductions cfg.mode []) = 100 := by
    rw [htd]
    norm_num
  refine ⟨detect_empty cfg, ?_, ?_, ?_⟩
  · unfold calculateComplianceScore
    simp only [hr1, hr2, hr3, Bool.false_eq_true, if_false, hbase, min_self]
  · unfold calculateComplianceScore
    simp only [hregs]
  · unfold calculateComplianceScore
    simp only [hr1, hr2, hr3, Bool.false_eq_true, if_false, hbase, min_self]
    rw [if_neg (by linarith), if_neg (by linarith), if_neg (by linarith)]

/-- Witness for the empty-input contract at the Production preset. -/
theorem c8_empty_input_contract_witness :
    detectBiasPatterns DEFAULT_PRODUCTION_CONFIG "" = [] ∧
    (calculateComplianceScore DEFAULT_PRODUCTION_CONFIG []).overallScore = 100 ∧
    (calculateComplianceScore DEFAULT_PRODUCTION_CONFIG []).regulations_triggered = [] ∧
    (calculateComplianceScore DEFAULT_PRODUCTION_CONFIG []).riskLevel = RiskLevel.low :=
  c8_empty_input_contract DEFAULT_PRODUCTION_CONFIG
    (by norm_num [DEFAULT_PRODUCTION_CONFIG]) (by norm_num [DEFAULT_PRODUCTION_CONFIG])
    (by norm_num [DEFAULT_PRODUCTION_CONFIG])

/-- C9: when fewer than count tokens are available and the refill interval
has not yet elapsed, removeTokens resolves after interval - timePassed
milliseconds with the limiter state entirely unchanged: tokens are not
deducted and lastRefill is not updated on the wait path, so arbitrarily many
such calls in a row all complete against the very same state (no
per-interval capacity is consumed by them). -/
theorem c9_removeTokens_wait_frame (st : RateLimiter) (now : ℤ) (count : ℚ)
    (hTime : now - st.lastRefill < st.interval)
    (hTok : st.tokens < count) :
    removeTokens st now count =
      (RateOutcome.waited (st.interval - (now - st.lastRefill)), st) ∧
    (∀ k : ℕ, (fun s => (removeTokens s now count).2)^[k] st = st) := by
  have hmain : removeTokens st now count =
      (RateOutcome.waited (st.interval - (now - st.lastRefill)), st) := by
    simp only [removeTokens]
    have hng1 : ¬(now - st.lastRefill ≥ st.interval) := not_le.mpr hTime
    rw [if_neg hng1]
    have hng2 : ¬(st.tokens ≥ count) := not_le.mpr hTok
    rw [if_neg hng2]
  refine ⟨hmain, fun k => Function.iterate_fixed ?_ k⟩
  rw [hmain]

/-- Witness for the wait-path frame theorem: 60 tokens per minute, all
spent, 1 second into the interval; the call waits 59000 ms and changes
nothing. -/
theorem c9_removeTokens_wait_frame_witness :
    removeTokens
        { tokens := 0, lastRefill := 0, tokensPerInterval := 60, interval := 60000 }
        1000 1 =
      (RateOutcome.waited 59000,
        { tokens := 0, lastRefill := 0, tokensPerInterval := 60, interval := 60000 }) ∧
    (∀ k : ℕ,
      (fun s => (removeTokens s 1000 1).2)^[k]
          { tokens := 0, lastRefill := 0, tokensPerInterval := 60, interval := 60000 } =
        { tokens := 0, lastRefill := 0, tokensPerInterval := 60, interval := 60000 }) := by
  have h := c9_removeTokens_wait_frame
    { tokens := 0, lastRefill := 0, tokensPerInterval := 60, interval := 60000 }
    1000 1 (by decide) (by decide)
  exact ⟨h.1, h.2⟩

/-- C10: batchCulturalAudit on the empty request list reports success with
totalProcessed 0, but its average compliance score divides the accumulated
total 0 by the request count 0 with no guard, which in JS float arithmetic
is NaN (modelled by JsNum.nan). -/
theorem c10_batch_empty_avg_nan
    (analyze : BatchAuditRequest → Except String AnalysisResult) (elapsed : ℤ) :
    batchCulturalAudit analyze [] elapsed =
      { success := true
        results := []
        summary :=
          { totalProcessed := 0, avgComplianceScore := JsNum.nan,
            criticalIssuesCount := 0, processingTime := elapsed } } := by
  unfold batchCulturalAudit
  simp [jsDiv]
